import Mathlib

/-!
Verification of the cachex subsystem of the gopkg repository.

The Go sources are shallowly embedded: pure functions become Lean
functions, machine integers become Int (with explicit reduction modulo
2^64 where the code converts through uint64), byte slices become
List Nat, fallible calls return Except, and effectful inputs (cache
reads, loader calls, random TTL jitter, the current time) are passed
as explicit parameters.
-/

/- ===== 64-bit integer helpers (Go int64 / uint64 conversions) ===== -/

def twoPow63 : Int := 9223372036854775808

def twoPow64 : Int := 18446744073709551616

def twoPow64N : Nat := 18446744073709551616

/-- Go uint64(x) for an int64 value x: reduction modulo 2^64. -/
def toU64 (x : Int) : Nat := (x % twoPow64).toNat

/-- Go int64(u) for a uint64 value u: two's-complement reinterpretation,
written arithmetically: values below 2^63 map to themselves, larger ones
to their value minus 2^64. -/
def toI64 (n : Nat) : Int := ((n : Int) + twoPow63) % twoPow64 - twoPow63

/-- Little-endian 8-byte encoding used by binary.LittleEndian.PutUint64. -/
def u64le (n : Nat) : List Nat :=
  [n % 256, n / 256 % 256, n / 65536 % 256, n / 16777216 % 256,
   n / 4294967296 % 256, n / 1099511627776 % 256,
   n / 281474976710656 % 256, n / 72057594037927936 % 256]

/-- Little-endian decoding used by binary.LittleEndian.Uint64. -/
def fromLe (bs : List Nat) : Nat :=
  bs.foldr (fun b acc => b + 256 * acc) 0

theorem fromLe_u64le (n : Nat) : fromLe (u64le n) = n % twoPow64N := by
  simp [fromLe, u64le, twoPow64N]
  omega

theorem toU64_lt (x : Int) : toU64 x < twoPow64N := by
  unfold toU64 twoPow64 twoPow64N
  omega

theorem toI64_mod_toU64 (x : Int) (h1 : -twoPow63 ≤ x) (h2 : x < twoPow63) :
    toI64 (toU64 x % twoPow64N) = x := by
  unfold toI64 toU64 twoPow63 twoPow64 twoPow64N at *
  omega

/- ===== Envelope (entry.go) ===== -/

/-- The entry struct: createAt in ms since epoch (int64), ttl as a Go
Duration in nanoseconds (int64), the codec-encoded payload, the cached
decoded value (nil pointer = none), and the isNil byte (uint8). -/
structure Entry (V : Type) where
  createAt : Int
  ttl : Int
  valBytes : List Nat
  val : Option V
  isNil : Nat
deriving DecidableEq

/-- Codec contract: Marshal and Unmarshal, both fallible. -/
structure Codec (V : Type) where
  marshal : V → Except String (List Nat)
  unmarshal : List Nat → Except String V

def bytesHeaderSize : Nat := 17

/-- entry.Serialize: marshal the cached value when valBytes is empty and
val is non-nil, then emit the 17-byte little-endian header followed by
the payload. -/
def Entry.serialize {V : Type} (e : Entry V) (c : Codec V) : Except String (List Nat) :=
  match (if e.valBytes.length = 0 then
           match e.val with
           | some v => c.marshal v
           | none => Except.ok e.valBytes
         else Except.ok e.valBytes) with
  | Except.error msg => Except.error msg
  | Except.ok vb =>
      Except.ok (u64le (toU64 e.createAt) ++ u64le (toU64 e.ttl) ++ [e.isNil % 256] ++ vb)

/-- deserializeEntry: frames shorter than 17 bytes parse to the null
envelope; otherwise the header fields are decoded and the remainder
becomes valBytes, with no cached value. -/
def deserializeEntry (V : Type) (bs : List Nat) : Option (Entry V) :=
  if bs.length < 17 then none
  else some
    { createAt := toI64 (fromLe (bs.take 8))
      ttl := toI64 (fromLe ((bs.drop 8).take 8))
      isNil := (bs.drop 16).headD 0
      valBytes := bs.drop 17
      val := none }

/-- entry.IsExpired, with the current time (time.Now().UnixMilli())
passed explicitly; ttl is converted to milliseconds by integer division
as in Duration.Milliseconds(). -/
def Entry.isExpired {V : Type} (e : Entry V) (now : Int) : Bool :=
  if e.ttl ≤ 0 then false
  else if e.createAt + e.ttl / 1000000 < now then true
  else false

def Entry.isNilB {V : Type} (e : Entry V) : Bool := e.isNil == 1

/-- Result of entry.Value: either a panic (unmarshal failure) or the
pair (value pointer, error) that Go returns. -/
inductive ValueRes (V : Type) where
  | panicked : ValueRes V
  | res : Option V → Option String → ValueRes V
deriving DecidableEq

/-- entry.Value with the Go nil-receiver check: nil entry or isNil entry
yield (nil, nil); a cached val is returned directly; otherwise the
payload is unmarshalled, and an unmarshal error panics. -/
def entryValue {V : Type} : Option (Entry V) → Codec V → ValueRes V
  | none, _ => ValueRes.res none none
  | some e, c =>
      if e.isNil = 1 then ValueRes.res none none
      else
        match e.val with
        | some v => ValueRes.res (some v) none
        | none =>
            match c.unmarshal e.valBytes with
            | Except.ok v => ValueRes.res (some v) none
            | Except.error _ => ValueRes.panicked

/-- newEntry, with the creation instant passed explicitly. -/
def newEntry {V : Type} (val : Option V) (ttl : Int) (now : Int) : Entry V :=
  match val with
  | none => { createAt := now, ttl := ttl, valBytes := [], val := none, isNil := 1 }
  | some v => { createAt := now, ttl := ttl, valBytes := [], val := some v, isNil := 0 }

/- ===== Claim C6: logical expiry predicate ===== -/

/-- Claim C6: an envelope is expired at time now iff ttl is strictly
positive and createAt plus ttl in milliseconds is strictly below now;
in particular ttl that is not positive never expires. -/
theorem c6_expiry_iff {V : Type} (e : Entry V) (now : Int) :
    (e.isExpired now = true ↔ (0 < e.ttl ∧ e.createAt + e.ttl / 1000000 < now)) ∧
    (e.ttl ≤ 0 → e.isExpired now = false) := by
  unfold Entry.isExpired
  constructor
  · constructor
    · intro h
      by_cases h1 : e.ttl ≤ 0
      · simp [h1] at h
      · by_cases h2 : e.createAt + e.ttl / 1000000 < now
        · exact ⟨by omega, h2⟩
        · simp [h1, h2] at h
    · intro ⟨h1, h2⟩
      simp [show ¬ e.ttl ≤ 0 by omega, h2]
  · intro h
    simp [h]

def entNat (ca ttl inil : Int) : Entry Nat :=
  { createAt := ca, ttl := ttl, valBytes := [], val := none, isNil := inil.toNat }

/-- Concrete instance of claim C6: an envelope created at 0 with a
1 ms logical ttl is expired at now = 5 ms. -/
theorem c6_expiry_iff_witness : (entNat 0 1000000 0).isExpired 5 = true :=
  (c6_expiry_iff (entNat 0 1000000 0) 5).1.mpr (by decide)

/- ===== Claim C10: Value panics on unmarshal failure ===== -/

/-- Every non-panicking result of entry.Value carries a nil error. -/
theorem entryValue_err_none {V : Type} (oe : Option (Entry V)) (c : Codec V)
    (r : Option V) (err : Option String)
    (h : entryValue oe c = ValueRes.res r err) : err = none := by
  match oe with
  | none => simp [entryValue] at h; exact h.2.symm
  | some e =>
    unfold entryValue at h
    by_cases h1 : e.isNil = 1
    · simp [h1] at h; exact h.2.symm
    · simp [h1] at h
      match hv : e.val with
      | some v => simp [hv] at h; exact h.2.symm
      | none =>
        simp [hv] at h
        match hm : c.unmarshal e.valBytes with
        | Except.ok v => simp [hm] at h; exact h.2.symm
        | Except.error m => simp [hm] at h

/-- Claim C10: when the envelope is non-nil, not marked isNil, has no
cached value and the codec fails to unmarshal its payload, entry.Value
panics; and the error component of every non-panicking Value result is
nil. -/
theorem c10_value_panics {V : Type} :
    (∀ (e : Entry V) (c : Codec V) (msg : String),
        e.isNil ≠ 1 → e.val = none → c.unmarshal e.valBytes = Except.error msg →
        entryValue (some e) c = ValueRes.panicked) ∧
    (∀ (oe : Option (Entry V)) (c : Codec V) (r : Option V) (err : Option String),
        entryValue oe c = ValueRes.res r err → err = none) := by
  constructor
  · intro e c msg hnil hval hum
    simp [entryValue, hnil, hval, hum]
  · intro oe c r err h
    exact entryValue_err_none oe c r err h

def msgBad : String := "bad payload"

def badCodec : Codec Nat :=
  { marshal := fun n => Except.ok [n % 256]
    unmarshal := fun _ => Except.error msgBad }

/-- Concrete instance of claim C10: a value envelope whose payload the
codec rejects makes Value panic. -/
theorem c10_value_panics_witness :
    entryValue (some (entNat 0 0 0)) badCodec = ValueRes.panicked :=
  (c10_value_panics (V := Nat)).1 (entNat 0 0 0) badCodec msgBad
    (by decide) (by decide) (by rfl)

/- ===== Frame decoding helpers ===== -/

theorem frame_take8 (a b i : Nat) (vb : List Nat) :
    (u64le a ++ u64le b ++ [i] ++ vb).take 8 = u64le a := rfl

theorem frame_mid8 (a b i : Nat) (vb : List Nat) :
    ((u64le a ++ u64le b ++ [i] ++ vb).drop 8).take 8 = u64le b := rfl

theorem frame_nilbyte (a b i : Nat) (vb : List Nat) :
    ((u64le a ++ u64le b ++ [i] ++ vb).drop 16).headD 0 = i := rfl

theorem frame_payload (a b i : Nat) (vb : List Nat) :
    (u64le a ++ u64le b ++ [i] ++ vb).drop 17 = vb := rfl

theorem frame_length (a b i : Nat) (vb : List Nat) :
    (u64le a ++ u64le b ++ [i] ++ vb).length = 17 + vb.length := by
  simp [u64le]
  omega

theorem deserialize_frame (V : Type) (a b i : Nat) (vb : List Nat) :
    deserializeEntry V (u64le a ++ u64le b ++ [i] ++ vb) =
      some { createAt := toI64 (a % twoPow64N), ttl := toI64 (b % twoPow64N),
             isNil := i, valBytes := vb, val := none } := by
  unfold deserializeEntry
  rw [if_neg (by rw [frame_length]; omega)]
  rw [frame_take8, frame_mid8, frame_nilbyte, frame_payload]
  rw [fromLe_u64le, fromLe_u64le]

/-- Shape of a successful Serialize call: the payload actually emitted,
together with where it came from. -/
theorem serialize_cases {V : Type} (e : Entry V) (c : Codec V) (bs : List Nat)
    (hser : e.serialize c = Except.ok bs) :
    ∃ vb, bs = u64le (toU64 e.createAt) ++ u64le (toU64 e.ttl) ++ [e.isNil % 256] ++ vb ∧
      ((e.valBytes ≠ [] ∨ e.val = none) → vb = e.valBytes) ∧
      (∀ v : V, e.val = some v → e.valBytes = [] → c.marshal v = Except.ok vb) := by
  unfold Entry.serialize at hser
  split at hser
  next msg heq => exact absurd hser (by simp)
  next vb heq =>
    have hbs : bs = u64le (toU64 e.createAt) ++ u64le (toU64 e.ttl) ++ [e.isNil % 256] ++ vb :=
      ((Except.ok.injEq _ _).mp hser).symm
    split at heq
    next hlen =>
      split at heq
      next v hv =>
        refine ⟨vb, hbs, ?_, ?_⟩
        · intro hor
          rcases hor with hne | hnone
          · exact absurd (List.length_eq_zero.mp hlen) hne
          · rw [hnone] at hv
            exact absurd hv (by simp)
        · intro w hw _
          rw [hv] at hw
          cases hw
          exact heq
      next hv =>
        have hvb : vb = e.valBytes := ((Except.ok.injEq _ _).mp heq).symm
        refine ⟨vb, hbs, fun _ => hvb, ?_⟩
        intro w hw _
        rw [hv] at hw
        exact absurd hw (by simp)
    next hlen =>
      have hvb : vb = e.valBytes := ((Except.ok.injEq _ _).mp heq).symm
      refine ⟨vb, hbs, fun _ => hvb, ?_⟩
      intro w hw hb
      rw [hb] at hlen
      exact absurd rfl hlen

/- ===== Claim C5: envelope wire format ===== -/

/-- Claim C5: a successful Serialize emits 8 little-endian bytes of
createAt, 8 of ttl, one isNil byte and then the payload, for a total of
17 plus the payload length; and deserializeEntry maps every input
shorter than 17 bytes to the null envelope. -/
theorem c5_wire_format (V : Type) :
    (∀ (e : Entry V) (c : Codec V) (bs : List Nat), e.serialize c = Except.ok bs →
      ∃ vb, bs = u64le (toU64 e.createAt) ++ u64le (toU64 e.ttl) ++ [e.isNil % 256] ++ vb ∧
        bs.length = 17 + vb.length ∧
        ((e.valBytes ≠ [] ∨ e.val = none) → vb = e.valBytes) ∧
        (∀ v : V, e.val = some v → e.valBytes = [] → c.marshal v = Except.ok vb)) ∧
    (∀ bs : List Nat, bs.length < 17 → deserializeEntry V bs = none) := by
  constructor
  · intro e c bs hser
    obtain ⟨vb, hbs, hkeep, hm⟩ := serialize_cases e c bs hser
    exact ⟨vb, hbs, by rw [hbs, frame_length], hkeep, hm⟩
  · intro bs h
    unfold deserializeEntry
    rw [if_pos h]

/-- Concrete instance of claim C5: the empty input is shorter than the
17-byte header and parses to the null envelope. -/
theorem c5_wire_format_witness : deserializeEntry Nat [] = none :=
  (c5_wire_format Nat).2 [] (by decide)

/- ===== Claim C4: envelope round-trip ===== -/

set_option maxRecDepth 100000 in
/-- Claim C4: for a matching codec (unmarshal inverts marshal, and the
cached payload of the envelope decodes to its cached value), serializing
and deserializing an envelope whose numeric fields fit in their machine
types yields an envelope with the same createAt, ttl and isNil, whose
Value under the codec is the same. -/
theorem c4_envelope_roundtrip {V : Type} (e : Entry V) (c : Codec V) (bs : List Nat)
    (hser : e.serialize c = Except.ok bs)
    (hrt : ∀ (v : V) (out : List Nat), c.marshal v = Except.ok out →
      c.unmarshal out = Except.ok v)
    (hwf : ∀ v : V, e.val = some v → e.valBytes ≠ [] →
      c.unmarshal e.valBytes = Except.ok v)
    (hca1 : -twoPow63 ≤ e.createAt) (hca2 : e.createAt < twoPow63)
    (httl1 : -twoPow63 ≤ e.ttl) (httl2 : e.ttl < twoPow63)
    (hnil : e.isNil < 256) :
    ∃ e' : Entry V, deserializeEntry V bs = some e' ∧
      e'.createAt = e.createAt ∧ e'.ttl = e.ttl ∧ e'.isNil = e.isNil ∧
      entryValue (some e') c = entryValue (some e) c := by
  obtain ⟨vb, hbs, hkeep, hm⟩ := serialize_cases e c bs hser
  rw [hbs, deserialize_frame]
  refine ⟨_, rfl, ?_, ?_, ?_, ?_⟩
  · show toI64 (toU64 e.createAt % twoPow64N) = e.createAt
    exact toI64_mod_toU64 e.createAt hca1 hca2
  · exact toI64_mod_toU64 e.ttl httl1 httl2
  · exact Nat.mod_eq_of_lt hnil
  · by_cases hinil : e.isNil = 1
    · simp [entryValue, hinil, Nat.mod_eq_of_lt hnil]
    · have hmod : e.isNil % 256 = e.isNil := Nat.mod_eq_of_lt hnil
      simp only [entryValue, hmod, if_neg hinil]
      match hv : e.val with
      | some v =>
        by_cases hb : e.valBytes = []
        · have := hm v hv hb
          rw [hrt v vb this]
        · have h1 := hkeep (Or.inl hb)
          rw [h1, hwf v hv hb]
      | none =>
        have h1 := hkeep (Or.inr hv)
        rw [h1]

def idCodec : Codec Nat :=
  { marshal := fun n => Except.ok [n]
    unmarshal := fun bs => Except.ok (bs.headD 0) }

def entVal5 : Entry Nat := newEntry (some 5) 60000000000 100

def frame5 : List Nat := u64le (toU64 100) ++ u64le (toU64 60000000000) ++ [0 % 256] ++ [5]

set_option maxRecDepth 100000 in
/-- Concrete instance of claim C4: a value envelope holding 5 with a
60 s ttl created at t = 100 ms round-trips through the wire format. -/
theorem c4_envelope_roundtrip_witness :
    ∃ e' : Entry Nat, deserializeEntry Nat frame5 = some e' ∧
      e'.createAt = entVal5.createAt ∧ e'.ttl = entVal5.ttl ∧
      e'.isNil = entVal5.isNil ∧
      entryValue (some e') idCodec = entryValue (some entVal5) idCodec :=
  c4_envelope_roundtrip entVal5 idCodec frame5
    (by rfl)
    (by intro v out h
        simp [idCodec] at h
        simp [idCodec, ← h])
    (by intro v hv hne
        exact absurd rfl hne)
    (by decide) (by decide) (by decide) (by decide) (by decide)

/- ===== Wrapper read path (wrapper.go) ===== -/

/-- wrapper.latest: reconciliation of two optional envelopes by createAt;
nil when both are nil, the non-nil one when only one exists, and the one
with the strictly greater createAt otherwise (ties go to the second). -/
def latest {V : Type} : Option (Entry V) → Option (Entry V) → Option (Entry V)
  | none, none => none
  | some e1, some e2 => if e1.createAt > e2.createAt then some e1 else some e2
  | some e1, none => some e1
  | none, some e2 => some e2

/-- The Go guard pattern x != nil && !x.IsExpired() used on both layers. -/
def hitFresh {V : Type} (oe : Option (Entry V)) (now : Int) : Bool :=
  match oe with
  | none => false
  | some e => !(e.isExpired now)

/-- wrapper.getDelTTL for level 1: the configured delete TTL plus a
jitter of r milliseconds, r drawn uniformly from [0, 1000); the level 2
variant multiplies by 1.3 through float64 and is not needed here. -/
def getDelTTL1 (delTTL r : Int) : Int := delTTL + r * 1000000

/-- Output of wrapper.Get: the returned envelope and the (envelope, ttl)
back-filled into L1, if any. -/
structure WGetOut (V : Type) where
  result : Option (Entry V)
  backfill : Option (Entry V × Int)
deriving DecidableEq

/-- wrapper.Get, with the two layer read results (after deserialization,
nil on store error or missing key) and the current time passed in:
return fresh L1; else return fresh L2 after back-filling it into L1 at
L1's delete TTL; else reconcile by latest. -/
def wrapperGet {V : Type} (delTTL r : Int) (fromL1 fromL2 : Option (Entry V))
    (now : Int) : WGetOut V :=
  if hitFresh fromL1 now then ⟨fromL1, none⟩
  else if hitFresh fromL2 now then
    ⟨fromL2, fromL2.map (fun e => (e, getDelTTL1 delTTL r))⟩
  else ⟨latest fromL1 fromL2, none⟩

/-- Claim C7: wrapper.Get returns a fresh L1 envelope as is; otherwise a
fresh L2 envelope is back-filled into L1 at L1's delete TTL and
returned; otherwise the envelope with the greater createAt is returned
(nil only when both are nil) with no back-fill — expired envelopes are
not filtered at this step. -/
theorem c7_two_tier_get {V : Type} (delTTL r now : Int)
    (fromL1 fromL2 : Option (Entry V)) :
    (∀ e1, fromL1 = some e1 → e1.isExpired now = false →
      wrapperGet delTTL r fromL1 fromL2 now = ⟨some e1, none⟩) ∧
    (hitFresh fromL1 now = false → ∀ e2, fromL2 = some e2 →
      e2.isExpired now = false →
      wrapperGet delTTL r fromL1 fromL2 now =
        ⟨some e2, some (e2, getDelTTL1 delTTL r)⟩) ∧
    (hitFresh fromL1 now = false → hitFresh fromL2 now = false →
      (wrapperGet delTTL r fromL1 fromL2 now).backfill = none ∧
      (fromL1 = none → fromL2 = none →
        (wrapperGet delTTL r fromL1 fromL2 now).result = none) ∧
      (∀ e1 e2, fromL1 = some e1 → fromL2 = some e2 →
        (wrapperGet delTTL r fromL1 fromL2 now).result =
          some (if e1.createAt > e2.createAt then e1 else e2)) ∧
      (∀ e1, fromL1 = some e1 → fromL2 = none →
        (wrapperGet delTTL r fromL1 fromL2 now).result = some e1) ∧
      (∀ e2, fromL1 = none → fromL2 = some e2 →
        (wrapperGet delTTL r fromL1 fromL2 now).result = some e2)) := by
  refine ⟨?_, ?_, ?_⟩
  · intro e1 h1 hfr
    subst h1
    have hh : hitFresh (some e1) now = true := by simp [hitFresh, hfr]
    simp [wrapperGet, hh]
  · intro hmiss e2 h2 hfr
    subst h2
    have hh : hitFresh (some e2) now = true := by simp [hitFresh, hfr]
    simp [wrapperGet, hmiss, hh]
  · intro hm1 hm2
    refine ⟨?_, ?_, ?_, ?_, ?_⟩
    · simp [wrapperGet, hm1, hm2]
    · intro h1 h2
      subst h1; subst h2
      simp [wrapperGet, hm1, hm2, latest]
    · intro e1 e2 h1 h2
      subst h1; subst h2
      simp only [wrapperGet, hm1, hm2, Bool.false_eq_true, if_false, latest]
      by_cases hc : e1.createAt > e2.createAt
      · rw [if_pos hc, if_pos hc]
      · rw [if_neg hc, if_neg hc]
    · intro e1 h1 h2
      subst h1; subst h2
      simp [wrapperGet, hm1, hm2, latest]
    · intro e2 h1 h2
      subst h1; subst h2
      simp [wrapperGet, hm1, hm2, latest]

def freshEnt : Entry Nat :=
  { createAt := 0, ttl := 0, valBytes := [7], val := none, isNil := 0 }

/-- Concrete instance of claim C7: a never-expiring L1 envelope is
returned directly with no back-fill. -/
theorem c7_two_tier_get_witness :
    wrapperGet 0 0 (some freshEnt) none 5 = ⟨some freshEnt, none⟩ :=
  (c7_two_tier_get 0 0 5 (some freshEnt) none).1 freshEnt rfl (by decide)

/- ===== Facade Get under ExpiredBackup (impl.go) ===== -/

/-- Facade-level filter applied by cachex.set before delegating to the
wrapper: nil envelopes and, when cacheNil is off, isNil envelopes are
dropped. -/
def cachexSetFilter {V : Type} (cacheNil : Bool) :
    Option (Entry V) → Option (Entry V)
  | none => none
  | some e => if e.isNil = 1 && !cacheNil then none else some e

/-- Output of a facade point Get: the (value, error) pair - or a panic -
plus the envelope forwarded to the wrapper as a write-back, if any. -/
structure SSGetOut (V : Type) where
  result : ValueRes V
  writeback : Option (Entry V)

/-- cachex.ssExpiredBackupGet, with the cache read result and the load
outcome passed in: fresh cache value is returned; otherwise the source
is consulted; on load error any cached envelope (even expired) is
returned, else the error; on load success the cache is refreshed via
cachex.set and the loaded value returned. -/
def ssExpiredBackupGet {V : Type} (codec : Codec V) (cacheNil : Bool)
    (fromCache : Option (Entry V)) (loadRes : Except String (Option (Entry V)))
    (now : Int) : SSGetOut V :=
  if hitFresh fromCache now then ⟨entryValue fromCache codec, none⟩
  else
    match loadRes with
    | Except.error msg =>
        match fromCache with
        | some fc => ⟨entryValue (some fc) codec, none⟩
        | none => ⟨ValueRes.res none (some msg), none⟩
    | Except.ok fromSource =>
        ⟨entryValue fromSource codec, cachexSetFilter cacheNil fromSource⟩

/-- Claim C3: under ExpiredBackup, a fresh cached envelope is returned
without consulting the loader; on load error any cached envelope (even
logically expired) is returned through Value, with no error component in
every non-panicking execution; and with no cached envelope the load
error is propagated. -/
theorem c3_expired_backup_get {V : Type} (codec : Codec V) (cn : Bool)
    (fromCache : Option (Entry V)) (loadRes : Except String (Option (Entry V)))
    (now : Int) :
    (∀ e, fromCache = some e → e.isExpired now = false →
      ssExpiredBackupGet codec cn fromCache loadRes now =
        ⟨entryValue (some e) codec, none⟩) ∧
    (∀ msg e, loadRes = Except.error msg → fromCache = some e →
      ssExpiredBackupGet codec cn fromCache loadRes now =
        ⟨entryValue (some e) codec, none⟩) ∧
    (∀ msg, loadRes = Except.error msg → fromCache = none →
      ssExpiredBackupGet codec cn fromCache loadRes now =
        ⟨ValueRes.res none (some msg), none⟩) ∧
    (∀ (oe : Option (Entry V)) (r : Option V) (err : Option String),
      entryValue oe codec = ValueRes.res r err → err = none) := by
  refine ⟨?_, ?_, ?_, ?_⟩
  · intro e he hfr
    subst he
    have hh : hitFresh (some e) now = true := by simp [hitFresh, hfr]
    simp [ssExpiredBackupGet, hh]
  · intro msg e hl he
    subst he; subst hl
    by_cases hh : hitFresh (some e) now
    · simp [ssExpiredBackupGet, hh]
    · simp [ssExpiredBackupGet, hh]
  · intro msg hl he
    subst he; subst hl
    simp [ssExpiredBackupGet, hitFresh]
  · intro oe r err h
    exact entryValue_err_none oe codec r err h

def staleEnt : Entry Nat :=
  { createAt := 0, ttl := 1000000, valBytes := [], val := none, isNil := 0 }

/-- Concrete instance of claim C3: with an expired cached envelope and a
failing loader, Get returns the stale value with no error. -/
theorem c3_expired_backup_get_witness :
    ssExpiredBackupGet idCodec false (some staleEnt) (Except.error msgBad) 50 =
      ⟨entryValue (some staleEnt) idCodec, none⟩ :=
  (c3_expired_backup_get idCodec false (some staleEnt)
    (Except.error msgBad) 50).2.1 msgBad staleEnt rfl rfl

/- ===== Store state and wrapper write path (wrapper.go) ===== -/

/-- A backing store (Cacher) as key to (bytes, delete TTL) association
state; MSet writes are pipelined per pair. -/
abbrev StoreRec := List (String × (List Nat × Int))

/-- Go map assignment semantics on an association list. -/
def assocSet {α : Type} (l : List (String × α)) (k : String) (v : α) :
    List (String × α) :=
  if l.any (fun p => p.1 == k) then
    l.map (fun p => if p.1 == k then (k, v) else p)
  else l ++ [(k, v)]

def storeMSet (s : StoreRec) (kvs : List (String × List Nat)) (ttl : Int) :
    StoreRec :=
  kvs.foldl (fun acc kv => assocSet acc kv.1 (kv.2, ttl)) s

/-- The filter/serialize loop of wrapper.mSet: nil entries are skipped,
isNil entries are skipped unless the wrapper's own cacheNil flag is set,
the rest are serialized; a serialization error aborts before any store
write. -/
def buildMSetData {V : Type} (wCacheNil : Bool) (c : Codec V) :
    List (String × Option (Entry V)) → Except String (List (String × List Nat))
  | [] => Except.ok []
  | (k, v) :: rest =>
      match v with
      | none => buildMSetData wCacheNil c rest
      | some e =>
          if e.isNil = 1 && !wCacheNil then buildMSetData wCacheNil c rest
          else
            match e.serialize c with
            | Except.error msg => Except.error msg
            | Except.ok bs =>
                match buildMSetData wCacheNil c rest with
                | Except.error msg => Except.error msg
                | Except.ok ds => Except.ok ((k, bs) :: ds)

/-- wrapper.mSet on one layer: nil cacher and empty input are no-ops;
otherwise the filtered serialized data is written at the given delete
TTL. Returns the error, if any, and the resulting layer state. -/
def wrapperMSetL {V : Type} (wCacheNil : Bool) (c : Codec V)
    (st : Option StoreRec) (kvs : List (String × Option (Entry V)))
    (ttl : Int) : Option String × Option StoreRec :=
  match st with
  | none => (none, none)
  | some s =>
      if kvs.length = 0 then (none, some s)
      else
        match buildMSetData wCacheNil c kvs with
        | Except.error msg => (some msg, some s)
        | Except.ok data => (none, some (storeMSet s data ttl))

/-- The wrapper state relevant to writes. newWrapper receives l1, l2,
delTTL, codec and logger but not cacheNil, which therefore keeps its
zero value false. -/
structure WrapperCfg where
  cacheNil : Bool
  delTTL : Int
deriving DecidableEq

def newWrapper (delTTL : Int) : WrapperCfg :=
  { cacheNil := false, delTTL := delTTL }

def errMSetCombined : String := "cachex: mSet cacher error"

/-- wrapper.MSet: fan out to L2 then L1, each with its own drawn delete
TTL, combining the two errors into one composite failure. -/
def wrapperMSet {V : Type} (w : WrapperCfg) (c : Codec V)
    (l1 l2 : Option StoreRec) (kvs : List (String × Option (Entry V)))
    (ttl2 ttl1 : Int) : Option String × Option StoreRec × Option StoreRec :=
  let r2 := wrapperMSetL w.cacheNil c l2 kvs ttl2
  let r1 := wrapperMSetL w.cacheNil c l1 kvs ttl1
  (if r1.1.isSome || r2.1.isSome then some errMSetCombined else none,
   r1.2, r2.2)

/- ===== Facade configuration (impl.go, builder) ===== -/

def ssCacheFirst : Int := 0

def ssSourceFirst : Int := 1

def ssCacheOnly : Int := 2

def ssSourceOnly : Int := 3

def ssExpiredBackup : Int := 4

/-- The cachex struct: the loader function references are tracked as
presence flags, the wrapper pointer as an optional configuration (none
models a nil pointer, whose dereference panics). -/
structure CachexCfg (K V : Type) where
  nspace : String
  codec : Codec V
  expireTTL : Int
  cache : Option WrapperCfg
  genKeyFn : K → String
  hasLoader : Bool
  hasMLoader : Bool
  cacheNil : Bool
  ss : Int

/-- cachex.key: namespace ++ ":" ++ genKeyFn. -/
def cachexKey {K V : Type} (c : CachexCfg K V) (k : K) : String :=
  c.nspace ++ ":" ++ c.genKeyFn k

/-- cachex.clone: the Go struct literal copies namespace, codec,
expireTTL, genKeyFn, loaderFn, mLoaderFn, cacheNil and ss, but omits the
cache (wrapper) and logger fields, which keep their zero values. -/
def cachexClone {K V : Type} (c : CachexCfg K V) : CachexCfg K V :=
  { nspace := c.nspace, codec := c.codec, expireTTL := c.expireTTL,
    genKeyFn := c.genKeyFn, hasLoader := c.hasLoader,
    hasMLoader := c.hasMLoader, cacheNil := c.cacheNil, ss := c.ss,
    cache := none }

/-- cachex.WithSourceStrategy: clone and override the strategy. -/
def withSourceStrategy {K V : Type} (c : CachexCfg K V) (ss : Int) :
    CachexCfg K V :=
  { cachexClone c with ss := ss }

/- ===== Facade write path (impl.go) ===== -/

def errLenMismatch : String := "keys values length not equal"

/-- Result of a facade MSet: none models a panic (nil wrapper
dereference); otherwise the returned error and both layer states. -/
structure MSetOut where
  err : Option String
  l1 : Option StoreRec
  l2 : Option StoreRec
deriving DecidableEq

set_option linter.unusedVariables false in
/-- cachex.mSet: a filtered map (nil-envelope entries dropped when the
facade cacheNil flag is off) is built into data, but the unfiltered
input kvs is what gets passed to the wrapper, exactly as in the source. -/
def cachexMSetLow {K V : Type} (c : CachexCfg K V) (l1 l2 : Option StoreRec)
    (kvs : List (String × Option (Entry V))) (ttl2 ttl1 : Int) :
    Option MSetOut :=
  let data := kvs.filter (fun kv =>
    match kv.2 with
    | none => true
    | some e => !(e.isNil == 1 && !c.cacheNil))
  match c.cache with
  | none => none
  | some w =>
      let r := wrapperMSet w c.codec l1 l2 kvs ttl2 ttl1
      some ⟨r.1, r.2.1, r.2.2⟩

/-- cachex.MSet: length check, envelope construction in index order with
Go map overwrite semantics, then cachex.mSet. -/
def cachexMSet {K V : Type} (c : CachexCfg K V) (l1 l2 : Option StoreRec)
    (keys : List K) (values : List (Option V)) (now ttl2 ttl1 : Int) :
    Option MSetOut :=
  if keys.length ≠ values.length then some ⟨some errLenMismatch, l1, l2⟩
  else
    let kvs := (List.zip keys values).foldl
      (fun acc kv =>
        assocSet acc (cachexKey c kv.1) (some (newEntry kv.2 c.expireTTL now)))
      []
    cachexMSetLow c l1 l2 kvs ttl2 ttl1

/- ===== Claim C8: MSet length mismatch ===== -/

/-- Claim C8: MSet with differing key and value counts returns the
length-mismatch error and leaves both layer states untouched. -/
theorem c8_mset_length_mismatch {K V : Type} (c : CachexCfg K V)
    (l1 l2 : Option StoreRec) (keys : List K) (values : List (Option V))
    (now ttl2 ttl1 : Int) (h : keys.length ≠ values.length) :
    cachexMSet c l1 l2 keys values now ttl2 ttl1 =
      some ⟨some errLenMismatch, l1, l2⟩ := by
  simp [cachexMSet, h]

def demoCodec : Codec Nat :=
  { marshal := fun n => Except.ok [n % 256]
    unmarshal := fun bs => Except.ok (bs.headD 0) }

def strDefault : String := "default"

def keyA : String := "a"

def keyB : String := "b"

def keyK : String := "k"

def demoCfg : CachexCfg String Nat :=
  { nspace := strDefault, codec := demoCodec, expireTTL := 0,
    cache := some (newWrapper 0), genKeyFn := fun k => k,
    hasLoader := true, hasMLoader := false, cacheNil := true,
    ss := ssCacheFirst }

/-- Concrete instance of claim C8: two keys against one value fail with
the length-mismatch error and unchanged stores. -/
theorem c8_mset_length_mismatch_witness :
    cachexMSet demoCfg (some []) none [keyA, keyB] [some 1] 0 0 0 =
      some ⟨some errLenMismatch, some [], none⟩ :=
  c8_mset_length_mismatch demoCfg (some []) none [keyA, keyB] [some 1]
    0 0 0 (by decide)

/- ===== Claim C1: negative caching policy (code bug) ===== -/

/-- Claim C1 is violated by the code: on a facade with cacheNil = true,
MSet of a nil value writes nothing to the L1 store (the builder never
passes cacheNil to newWrapper, so wrapper.mSet always filters isNil
envelopes; the facade mSet additionally discards its filtered map),
whereas the same MSet of a present value does write a frame. -/
theorem c1_mset_drops_nil_envelope :
    cachexMSet demoCfg (some []) none [keyK] [none] 0 0 0 =
      some ⟨none, some [], none⟩ ∧
    cachexMSet demoCfg (some []) none [keyK] [some 5] 0 0 0 ≠
      some ⟨none, some [], none⟩ := by
  constructor
  · rfl
  · decide

/- ===== Claim C2: WithSourceStrategy clone (code bug) ===== -/

/-- Claim C2 is violated by the code: clone() drops the wrapper
reference, so the facade returned by WithSourceStrategy has a nil cache
and its operations panic instead of reaching the shared stores; the
other configuration fields are copied. -/
theorem c2_clone_drops_wrapper :
    demoCfg.cache = some (newWrapper 0) ∧
    (withSourceStrategy demoCfg ssCacheOnly).cache = none ∧
    (withSourceStrategy demoCfg ssCacheOnly).ss = ssCacheOnly ∧
    (withSourceStrategy demoCfg ssCacheOnly).nspace = demoCfg.nspace ∧
    (withSourceStrategy demoCfg ssCacheOnly).hasLoader = demoCfg.hasLoader ∧
    (withSourceStrategy demoCfg ssCacheOnly).cacheNil = demoCfg.cacheNil ∧
    cachexMSet (withSourceStrategy demoCfg ssCacheOnly)
      (some []) none [keyK] [some 5] 0 0 0 = none :=
  ⟨rfl, rfl, rfl, rfl, rfl, rfl, rfl⟩

/- ===== Facade batch read path (impl.go) ===== -/

/-- Go map lookup on an association list. -/
def lookupA {α : Type} (l : List (String × α)) (k : String) : Option α :=
  (l.find? (fun p => p.1 == k)).map (fun p => p.2)

/-- cachex.groupBatchRes: classify each input key against the cache map
as hit (present and fresh, keyed by cache key), expire, or miss. -/
def groupBatchRes {K V : Type} (c : CachexCfg K V) (now : Int)
    (vals : List (String × Entry V)) :
    List K → List (String × Entry V) × List K × List K
  | [] => ([], [], [])
  | key :: rest =>
      let r := groupBatchRes c now vals rest
      match lookupA vals (cachexKey c key) with
      | none => (r.1, r.2.1, key :: r.2.2)
      | some v =>
          if v.isExpired now then (r.1, key :: r.2.1, r.2.2)
          else ((cachexKey c key, v) :: r.1, r.2.1, r.2.2)

/-- cachex.packBatchRes: one output slot per input key in order; a
missing envelope or a Value error yields nil in that slot, and a Value
panic aborts the whole batch (modelled as none). -/
def packBatchRes {K V : Type} (c : CachexCfg K V)
    (kvs : List (String × Entry V)) : List K → Option (List (Option V))
  | [] => some []
  | key :: rest =>
      match lookupA kvs (cachexKey c key) with
      | none => (packBatchRes c kvs rest).map (fun l => none :: l)
      | some e =>
          match entryValue (some e) c.codec with
          | ValueRes.panicked => none
          | ValueRes.res v err =>
              (packBatchRes c kvs rest).map
                (fun l => (if err.isSome then none else v) :: l)

/-- gmap.Merge of two maps, the second overriding the first. -/
def mergeAssoc {α : Type} (base extra : List (String × α)) :
    List (String × α) :=
  extra.foldl (fun acc p => assocSet acc p.1 p.2) base

/-- Result of a facade MGet: the (slice, error) pair or a panic. -/
inductive MGetRes (V : Type) where
  | panicked : MGetRes V
  | ok : List (Option V) → MGetRes V
  | err : String → MGetRes V
deriving DecidableEq

/-- A facade MGet outcome together with the kvs map forwarded to
cachex.mSet (and hence to the wrapper, unfiltered) as write-back. -/
structure MGetOut (V : Type) where
  res : MGetRes V
  writes : List (String × Option (Entry V))
deriving DecidableEq

def packToRes {V : Type} (p : Option (List (Option V))) : MGetRes V :=
  match p with
  | none => MGetRes.panicked
  | some vs => MGetRes.ok vs

/-- cachex.ssSourceOnlyMGet: load everything from source, never read or
write the cache. -/
def ssSourceOnlyMGet {K V : Type} (c : CachexCfg K V)
    (mload : List K → Except String (List (String × Entry V)))
    (keys : List K) : MGetOut V :=
  match mload keys with
  | Except.error msg => ⟨MGetRes.err msg, []⟩
  | Except.ok fromSource => ⟨packToRes (packBatchRes c fromSource keys), []⟩

/-- cachex.ssCacheOnlyMGet: pack the fresh hits, never load. -/
def ssCacheOnlyMGet {K V : Type} (c : CachexCfg K V)
    (fromCache : List (String × Entry V)) (now : Int) (keys : List K) :
    MGetOut V :=
  let g := groupBatchRes c now fromCache keys
  ⟨packToRes (packBatchRes c g.1 keys), []⟩

/-- cachex.ssCacheFirstMGet: full fresh hit returns directly; otherwise
load the expired and missing keys, write the loaded map back and pack
the merged map; a load error is propagated. -/
def ssCacheFirstMGet {K V : Type} (c : CachexCfg K V)
    (fromCache : List (String × Entry V))
    (mload : List K → Except String (List (String × Entry V)))
    (now : Int) (keys : List K) : MGetOut V :=
  let g := groupBatchRes c now fromCache keys
  if g.2.2.length = 0 ∧ g.2.1.length = 0 then
    ⟨packToRes (packBatchRes c g.1 keys), []⟩
  else
    match mload (g.2.1 ++ g.2.2) with
    | Except.error msg => ⟨MGetRes.err msg, []⟩
    | Except.ok fromSource =>
        ⟨packToRes (packBatchRes c (mergeAssoc g.1 fromSource) keys),
         fromSource.map (fun p => (p.1, some p.2))⟩

/-- cachex.ssExpiredBackupMGet: like CacheFirst, but a load error falls
back to packing the raw cache map (expired envelopes included) with no
error. -/
def ssExpiredBackupMGet {K V : Type} (c : CachexCfg K V)
    (fromCache : List (String × Entry V))
    (mload : List K → Except String (List (String × Entry V)))
    (now : Int) (keys : List K) : MGetOut V :=
  let g := groupBatchRes c now fromCache keys
  if g.2.2.length = 0 ∧ g.2.1.length = 0 then
    ⟨packToRes (packBatchRes c g.1 keys), []⟩
  else
    match mload (g.2.1 ++ g.2.2) with
    | Except.error _ => ⟨packToRes (packBatchRes c fromCache keys), []⟩
    | Except.ok fromSource =>
        ⟨packToRes (packBatchRes c (mergeAssoc g.1 fromSource) keys),
         fromSource.map (fun p => (p.1, some p.2))⟩

/-- cachex.ssSourceFirstMGet exists in the source but is never invoked:
the MGet dispatch routes SourceFirst to ssSourceOnlyMGet. -/
def ssSourceFirstMGet {K V : Type} (c : CachexCfg K V)
    (fromCache : List (String × Entry V))
    (mload : List K → Except String (List (String × Entry V)))
    (now : Int) (keys : List K) : MGetOut V :=
  match mload keys with
  | Except.error _ =>
      let g := groupBatchRes c now fromCache keys
      ⟨packToRes (packBatchRes c g.1 keys), []⟩
  | Except.ok fromSource =>
      ⟨packToRes (packBatchRes c fromSource keys),
       fromSource.map (fun p => (p.1, some p.2))⟩

def errInvalidStrategy : String := "invalid source strategy"

/-- cachex.MGet: dispatch on the configured source strategy; note that
the SourceFirst arm calls ssSourceOnlyMGet. -/
def cachexMGet {K V : Type} (c : CachexCfg K V)
    (fromCache : List (String × Entry V))
    (mload : List K → Except String (List (String × Entry V)))
    (keys : List K) (now : Int) : MGetOut V :=
  if c.ss = ssCacheFirst then ssCacheFirstMGet c fromCache mload now keys
  else if c.ss = ssSourceFirst then ssSourceOnlyMGet c mload keys
  else if c.ss = ssCacheOnly then ssCacheOnlyMGet c fromCache now keys
  else if c.ss = ssSourceOnly then ssSourceOnlyMGet c mload keys
  else if c.ss = ssExpiredBackup then ssExpiredBackupMGet c fromCache mload now keys
  else ⟨MGetRes.err errInvalidStrategy, []⟩

theorem cachexKey_ss {K V : Type} (c : CachexCfg K V) (x : Int) (k : K) :
    cachexKey { c with ss := x } k = cachexKey c k := rfl

theorem packBatchRes_ss {K V : Type} (c : CachexCfg K V) (x : Int)
    (kvs : List (String × Entry V)) (keys : List K) :
    packBatchRes { c with ss := x } kvs keys = packBatchRes c kvs keys := by
  induction keys with
  | nil => rfl
  | cons k rest ih =>
      simp only [packBatchRes, cachexKey_ss, ih]

theorem ssSourceOnlyMGet_ss {K V : Type} (c : CachexCfg K V) (x y : Int)
    (mload : List K → Except String (List (String × Entry V)))
    (keys : List K) :
    ssSourceOnlyMGet { c with ss := x } mload keys =
      ssSourceOnlyMGet { c with ss := y } mload keys := by
  unfold ssSourceOnlyMGet
  match mload keys with
  | Except.error msg => rfl
  | Except.ok fromSource => simp only [packBatchRes_ss]

/- ===== Claim C9: SourceFirst MGet degrades to SourceOnly ===== -/

/-- Claim C9: batch MGet with strategy SourceFirst equals batch MGet
with strategy SourceOnly on every input: both route to the source-only
path, depend in no way on the cache read or the current time, and
perform no cache write. -/
theorem c9_sourcefirst_mget_degrades {K V : Type} (c : CachexCfg K V)
    (fromCache fc2 : List (String × Entry V))
    (mload : List K → Except String (List (String × Entry V)))
    (keys : List K) (now now2 : Int) :
    cachexMGet { c with ss := ssSourceFirst } fromCache mload keys now =
      cachexMGet { c with ss := ssSourceOnly } fromCache mload keys now ∧
    cachexMGet { c with ss := ssSourceFirst } fromCache mload keys now =
      ssSourceOnlyMGet { c with ss := ssSourceFirst } mload keys ∧
    cachexMGet { c with ss := ssSourceFirst } fromCache mload keys now =
      cachexMGet { c with ss := ssSourceFirst } fc2 mload keys now2 ∧
    (cachexMGet { c with ss := ssSourceFirst } fromCache mload keys now).writes
      = [] := by
  have hd1 : cachexMGet { c with ss := ssSourceFirst } fromCache mload keys now
      = ssSourceOnlyMGet { c with ss := ssSourceFirst } mload keys := by
    simp [cachexMGet, ssCacheFirst, ssSourceFirst]
  have hd2 : cachexMGet { c with ss := ssSourceOnly } fromCache mload keys now
      = ssSourceOnlyMGet { c with ss := ssSourceOnly } mload keys := by
    simp [cachexMGet, ssCacheFirst, ssSourceFirst, ssCacheOnly, ssSourceOnly]
  have hd3 : cachexMGet { c with ss := ssSourceFirst } fc2 mload keys now2
      = ssSourceOnlyMGet { c with ss := ssSourceFirst } mload keys := by
    simp [cachexMGet, ssCacheFirst, ssSourceFirst]
  refine ⟨?_, hd1, ?_, ?_⟩
  · rw [hd1, hd2]
    exact ssSourceOnlyMGet_ss c ssSourceFirst ssSourceOnly mload keys
  · rw [hd1, hd3]
  · rw [hd1]
    unfold ssSourceOnlyMGet
    match mload keys with
    | Except.error msg => rfl
    | Except.ok fromSource => rfl

def demoMload : List String → Except String (List (String × Entry Nat)) :=
  fun _ => Except.ok []

/-- Concrete instance of claim C9: on a one-key batch the SourceFirst
and SourceOnly dispatches agree. -/
theorem c9_sourcefirst_mget_degrades_witness :
    cachexMGet { demoCfg with ss := ssSourceFirst } [] demoMload [keyK] 0 =
      cachexMGet { demoCfg with ss := ssSourceOnly } [] demoMload [keyK] 0 :=
  (c9_sourcefirst_mget_degrades demoCfg [] [] demoMload [keyK] 0 0).1
